import Mathlib

/-!
Verification development for the annotation ("lore") store of this repository.

The definitions below are a shallow embedding of the TypeScript sources:

* `src/itemManager.ts` — `upsertLoreItem` and its inner `makeNewItem`;
* `src/LoreManager.ts` — `adjustLoreLocations` (the location tracker, the
  revision that filters to `state === 'active'` items of the edited file and
  clamps with `Math.max(1, ...)`), `updateCommentRanges` /
  `getLoreItemsForFile` (the per-file decoration index), and `loadLore`;
* `src/fsUtils.ts` — `safeWriteJson` (write temp file, fsync, rename,
  best-effort directory sync), modelled over an explicit filesystem map with
  an injected failure point.

JavaScript numbers holding line counts are modelled as `Int` (deltas can be
negative); JavaScript truthiness for strings (`""` falsy) and numbers
(`0` falsy) is made explicit by the `orStr` / `orInt` / `jsOrStr` / `jsOrInt`
helpers, and `??` (nullish coalescing) by `Option.getD`.  External effects
(`Date.now()`, `new Date().toISOString()`, JSON serialization/parsing) are
passed in as explicit arguments.
-/

/-- Location of a lore item inside a file (`LoreLocation` in `types.ts`);
`startLine`/`endLine` are 1-based inclusive, the optional anchor fields are
reserved and only copied around by the code. -/
structure LoreLocation where
  startLine : Int
  endLine : Int
  anchorText : Option String := none
  contextPreview : Option String := none
  lineHash : Option String := none
  deriving DecidableEq, Repr

/-- State discriminator of a lore item (`'active' | 'archived' | 'deleted'`). -/
inductive LoreState where
  | active
  | archived
  | deleted
  deriving DecidableEq, Repr

/-- One stored lore record (`LoreItem` in `types.ts`).  Optional collection
fields are modelled as total (absent ≡ empty), which the code normalises to
anyway (`?? []`, `|| ''`). -/
structure LoreItem where
  id : String
  state : LoreState
  file : String
  location : LoreLocation
  summary : String
  bodyMarkdown : String
  tags : List String
  links : List String
  author : String
  createdAt : String
  updatedAt : String
  contentType : String
  isTrusted : Bool
  deriving DecidableEq, Repr

/-- The `fileMetadata` block of the persisted snapshot. -/
structure FileMetadata where
  workspace : String
  createdAt : String
  lastUpdatedAt : String
  lastUpdatedBy : String
  deriving DecidableEq, Repr

/-- The advisory `indexes` block of the persisted snapshot. -/
structure LoreIndexes where
  tags : List (String × Int)
  filesWithComments : Int
  deriving DecidableEq, Repr

/-- The root persisted document (`LoreSnapshot` in `types.ts`). -/
structure LoreSnapshot where
  schemaVersion : Int
  fileMetadata : FileMetadata
  indexes : LoreIndexes
  items : List LoreItem
  deriving DecidableEq, Repr

/-- Partial save payload coming from the webview (`SavePayload` in
`types.ts`); `none` models an absent (`undefined`) field. -/
structure SavePayload where
  id : Option String := none
  file : Option String := none
  startLine : Option Int := none
  endLine : Option Int := none
  summary : Option String := none
  body : Option String := none
  author : Option String := none
  tags : Option (List String) := none
  links : Option (List String) := none
  deriving DecidableEq, Repr

/-- JavaScript `a || b` where `a` is an optional string: `undefined` and the
empty string are falsy. -/
def orStr : Option String → String → String
  | some s, b => if s = "" then b else s
  | none, b => b

/-- JavaScript `a || b` where `a` is an optional number: `undefined` and `0`
are falsy. -/
def orInt : Option Int → Int → Int
  | some n, b => if n = 0 then b else n
  | none, b => b

/-- JavaScript `a || b` on plain strings (`""` falsy). -/
def jsOrStr (a b : String) : String := if a = "" then b else a

/-- JavaScript `a || b` on plain numbers (`0` falsy). -/
def jsOrInt (a b : Int) : Int := if a = 0 then b else a

/-- Truthiness of an optional string (`if (payload.id)`). -/
def optTruthy : Option String → Bool
  | some s => s ≠ ""
  | none => false

/-- Embedding of `makeNewItem` from `itemManager.ts`: the fresh id is
`` `lore-${Date.now()}` `` unless an id is supplied; text fields use
JavaScript `||` defaults. `now` stands for `nowISO()`, `nowMs` for
`Date.now()`. -/
def makeNewItem (payload : SavePayload) (relFile : String)
    (startLine endLine : Int) (now : String) (nowMs : Int)
    (suppliedId : Option String) : LoreItem :=
  { id := suppliedId.getD ("lore-" ++ toString nowMs)
    state := .active
    file := orStr payload.file relFile
    location := { startLine := orInt payload.startLine startLine
                  endLine := orInt payload.endLine endLine }
    summary := orStr payload.summary ""
    bodyMarkdown := orStr payload.body ""
    tags := payload.tags.getD []
    links := payload.links.getD []
    author := orStr payload.author ""
    createdAt := now
    updatedAt := now
    contentType := "markdown"
    isTrusted := false }

/-- Embedding of the in-place merge performed by `upsertLoreItem` in
`itemManager.ts` when the payload id matches an existing record: `||` chains
for `file`/`startLine`/`endLine` (payload, then the call's fallback, then the
existing value), `??` for the other mutable fields, `createdAt` copied from
the existing record, `updatedAt` stamped to now. -/
def mergeLoreItem (existing : LoreItem) (payload : SavePayload)
    (relFile : String) (startLine endLine : Int) (now : String) : LoreItem :=
  { existing with
    state := existing.state
    file := jsOrStr (orStr payload.file relFile) existing.file
    location := { startLine :=
                    jsOrInt (orInt payload.startLine startLine)
                      existing.location.startLine
                  endLine :=
                    jsOrInt (orInt payload.endLine endLine)
                      existing.location.endLine
                  anchorText := existing.location.anchorText
                  contextPreview := existing.location.contextPreview
                  lineHash := existing.location.lineHash }
    summary := payload.summary.getD existing.summary
    bodyMarkdown := payload.body.getD existing.bodyMarkdown
    tags := payload.tags.getD existing.tags
    links := payload.links.getD existing.links
    author := payload.author.getD existing.author
    createdAt := existing.createdAt
    updatedAt := now
    contentType := existing.contentType
    isTrusted := existing.isTrusted }

/-- Replace the first item whose id is `pid` by its image under `upd`,
returning the new list and the id of the updated record; `none` when no item
matches.  This models `items.findIndex(i => i.id === payload.id)` followed by
`items[idx] = updated` in `itemManager.ts`. -/
def updateFirstById (items : List LoreItem) (pid : String)
    (upd : LoreItem → LoreItem) : Option (List LoreItem × String) :=
  match items with
  | [] => none
  | i :: rest =>
    if i.id = pid then some ((upd i) :: rest, (upd i).id)
    else
      match updateFirstById rest pid upd with
      | some (rest2, rid) => some (i :: rest2, rid)
      | none => none

/-- Embedding of `upsertLoreItem` from `itemManager.ts`: if the payload
carries a truthy id matching an existing record the record is merged in
place; a truthy non-matching id creates a record with the supplied id; an
absent (or empty) id creates a record with the generated fresh id.  Returns
the updated snapshot and the id of the affected record. -/
def upsertLoreItem (snapshot : LoreSnapshot) (payload : SavePayload)
    (relFile : String) (startLine endLine : Int) (now : String)
    (nowMs : Int) : LoreSnapshot × String :=
  if optTruthy payload.id then
    let pid := payload.id.getD ""
    match updateFirstById snapshot.items pid
        (fun ex => mergeLoreItem ex payload relFile startLine endLine now) with
    | some (items2, rid) => ({ snapshot with items := items2 }, rid)
    | none =>
      let created := makeNewItem payload relFile startLine endLine now nowMs (some pid)
      ({ snapshot with items := snapshot.items ++ [created] }, created.id)
  else
    let created := makeNewItem payload relFile startLine endLine now nowMs none
    ({ snapshot with items := snapshot.items ++ [created] }, created.id)

/-- One entry of `event.contentChanges`: the replaced line span
`[rangeStartLine, rangeEndLine]` and the number of newlines in the inserted
text (`(change.text.match(/\n/g) || []).length`). -/
structure ContentChange where
  rangeStartLine : Int
  rangeEndLine : Int
  newLineCount : Int
  deriving DecidableEq, Repr

/-- Net line-count change of an edit:
`delta = newLines - (range.end.line - range.start.line)`. -/
def lineDelta (c : ContentChange) : Int :=
  c.newLineCount - (c.rangeEndLine - c.rangeStartLine)

/-- Per-item location adjustment of `adjustLoreLocations` in
`LoreManager.ts` for one content change with net delta `delta` (only invoked
when `delta ≠ 0`): work 0-based, shift a single-line record when the change
starts at-or-before it, shift a multi-line record wholly when the change
starts strictly before it and shift only its end (clamped to the start) when
the change starts at-or-before its end, then store back 1-based clamped with
`Math.max(1, ·)`. -/
def adjustLocation (loc : LoreLocation) (changeStartLine delta : Int) :
    LoreLocation :=
  let start := loc.startLine - 1
  let stop := loc.endLine - 1
  let moved :=
    if start = stop then
      if changeStartLine ≤ start then (start + delta, stop + delta)
      else (start, stop)
    else
      if changeStartLine < start then (start + delta, stop + delta)
      else if changeStartLine ≤ stop then
        let stop2 := stop + delta
        (start, if stop2 < start then start else stop2)
      else (start, stop)
  { loc with startLine := max 1 (moved.1 + 1), endLine := max 1 (moved.2 + 1) }

/-- Predicate selecting the items the tracker touches:
`i.file === relFile && i.state === 'active'`. -/
def trackedFor (relFile : String) (i : LoreItem) : Bool :=
  decide (i.file = relFile) && decide (i.state = LoreState.active)

/-- Effect of one content change on the item list: nothing when the net
delta is zero (the code `continue`s), otherwise every tracked item's
location is adjusted. -/
def applyChange (relFile : String) (items : List LoreItem)
    (c : ContentChange) : List LoreItem :=
  if lineDelta c = 0 then items
  else
    items.map fun i =>
      if trackedFor relFile i then
        { i with location := adjustLocation i.location c.rangeStartLine (lineDelta c) }
      else i

/-- Embedding of `adjustLoreLocations` from `LoreManager.ts`: early return
when the edited file has no active items; otherwise fold the content changes
over the item list, stamp `fileMetadata.lastUpdatedAt` when any change had a
nonzero delta, and report (as the returned boolean, which in the source is
the `hasChanges` flag gating `saveLoreDebounced` / decoration refresh)
whether any change had a nonzero line delta. -/
def adjustLoreLocations (snapshot : LoreSnapshot) (relFile : String)
    (changes : List ContentChange) (now : String) : LoreSnapshot × Bool :=
  if (snapshot.items.filter (trackedFor relFile)).isEmpty then (snapshot, false)
  else if changes.any fun c => decide (lineDelta c ≠ 0) then
    ({ snapshot with
        items := changes.foldl (applyChange relFile) snapshot.items
        fileMetadata := { snapshot.fileMetadata with lastUpdatedAt := now } },
      true)
  else (snapshot, false)

-- Sample data shared by concrete instances below.

/-- Sample metadata block used by concrete test stores. -/
def sampleMeta : FileMetadata :=
  { workspace := "w", createdAt := "t0", lastUpdatedAt := "t0", lastUpdatedBy := "" }

/-- Sample advisory index block used by concrete test stores. -/
def sampleIndexes : LoreIndexes := { tags := [], filesWithComments := 0 }

/-- Build a snapshot around a concrete item list. -/
def snapOf (items : List LoreItem) : LoreSnapshot :=
  { schemaVersion := 1, fileMetadata := sampleMeta, indexes := sampleIndexes,
    items := items }

/-- Sample active item on file `a.ts` spanning lines 5–10. -/
def baseItem : LoreItem :=
  { id := "i1", state := .active, file := "a.ts"
    location := { startLine := 5, endLine := 10 }
    summary := "s", bodyMarkdown := "b", tags := [], links := [], author := ""
    createdAt := "t0", updatedAt := "t0", contentType := "markdown"
    isTrusted := false }

example :
    ((adjustLoreLocations (snapOf [baseItem]) "a.ts"
        [{ rangeStartLine := 7, rangeEndLine := 7, newLineCount := 3 }]
        "t1").1.items.map fun i => (i.location.startLine, i.location.endLine))
      = [(5, 13)] := by decide

example :
    ((adjustLoreLocations (snapOf [baseItem]) "a.ts"
        [{ rangeStartLine := 20, rangeEndLine := 20, newLineCount := 5 }]
        "t1").2) = true := by decide

/-- Simplified `path.join(workspaceRoot, item.file)` for the well-formed
relative paths the store holds: root, separator, relative file. -/
def pathJoin (root file : String) : String := root ++ "/" ++ file

/-- Truthiness test `item.location.startLine && item.location.endLine` used
by `updateCommentRanges` (a zero line number is falsy). -/
def truthyLocation (i : LoreItem) : Bool :=
  decide (i.location.startLine ≠ 0) && decide (i.location.endLine ≠ 0)

/-- Append a value to the bucket of key `k` in an association-list map,
creating the bucket at the end when absent — the effect of
`commentRanges.get(filePath)!.push(...)` after a `has`/`set` check on a
JavaScript `Map` (insertion ordered). -/
def bucketAdd (m : List (String × List LoreItem)) (k : String)
    (v : LoreItem) : List (String × List LoreItem) :=
  match m with
  | [] => [(k, [v])]
  | (k2, l) :: rest =>
    if k2 = k then (k2, l ++ [v]) :: rest else (k2, l) :: bucketAdd rest k v

/-- Lookup of a bucket (`commentRanges.get(filePath) || []`). -/
def bucketGet (m : List (String × List LoreItem)) (k : String) :
    List LoreItem :=
  match m with
  | [] => []
  | (k2, l) :: rest => if k2 = k then l else bucketGet rest k

/-- Tail of the `updateCommentRanges` loop: walk the remaining items,
appending each item with a truthy location to the bucket of its joined
path. -/
def commentRangesAux (root : String) (m : List (String × List LoreItem)) :
    List LoreItem → List (String × List LoreItem)
  | [] => m
  | i :: rest =>
    commentRangesAux root
      (if truthyLocation i then bucketAdd m (pathJoin root i.file) i else m)
      rest

/-- Embedding of `updateCommentRanges` from `LoreManager.ts`: rebuild the
per-file index from scratch out of every item whose `startLine` and
`endLine` are truthy (note: no `state` filter appears in the source). -/
def updateCommentRanges (snapshot : LoreSnapshot) (root : String) :
    List (String × List LoreItem) :=
  commentRangesAux root [] snapshot.items

/-- Embedding of `getLoreItemsForFile` from `LoreManager.ts`:
`commentRanges.get(filePath) || []`. -/
def getLoreItemsForFile (snapshot : LoreSnapshot) (root filePath : String) :
    List LoreItem :=
  bucketGet (updateCommentRanges snapshot root) filePath

/-- Filesystem model: a map from paths to file contents. -/
def FS : Type := String → Option String

/-- Write (create or replace) a file. -/
def fsSet (fs : FS) (p v : String) : FS :=
  fun q => if q = p then some v else fs q

/-- Remove a file (the source side of `rename`). -/
def fsDel (fs : FS) (p : String) : FS :=
  fun q => if q = p then none else fs q

/-- Injected failure point for `safeWriteJson`: fail while serializing, while
writing the temp file (leaving partial temp contents), while fsyncing the
temp file, or not at all — with the directory fsync either succeeding or
failing (the latter swallowed by the source). -/
inductive WriteOutcome where
  | serializeFail
  | writeTmpFail
  | syncTmpFail
  | ok
  | okDirSyncFail
  deriving DecidableEq, Repr

/-- Embedding of `safeWriteJson` from `fsUtils.ts` over the filesystem
model: the temp path is `` `${filePath}.tmp.${Date.now()}` ``; on success the
rename removes the temp file and replaces the destination in one step; each
failure case returns the error together with the filesystem as the failed run
leaves it (`partContent` stands for whatever prefix an interrupted temp-file
write left behind). -/
def safeWriteJson (fs : FS) (filePath : String) (nowMs : Int) (text : String)
    (partContent : String) (outcome : WriteOutcome) :
    Option WriteOutcome × FS :=
  let tmp := filePath ++ (".tmp." ++ toString nowMs)
  match outcome with
  | .serializeFail => (some .serializeFail, fs)
  | .writeTmpFail => (some .writeTmpFail, fsSet fs tmp partContent)
  | .syncTmpFail => (some .syncTmpFail, fsSet fs tmp text)
  | .ok => (none, fsSet (fsDel (fsSet fs tmp text) tmp) filePath text)
  | .okDirSyncFail => (none, fsSet (fsDel (fsSet fs tmp text) tmp) filePath text)

/-- The empty snapshot `loadLore` falls back to when reading or parsing
`.lore.json` fails (`LoreManager.ts`, catch branch). -/
def emptySnapshot (workspace now : String) : LoreSnapshot :=
  { schemaVersion := 1
    fileMetadata := { workspace := workspace, createdAt := now,
                      lastUpdatedAt := now, lastUpdatedBy := "" }
    indexes := { tags := [], filesWithComments := 0 }
    items := [] }

/-- Embedding of `loadLore` from `LoreManager.ts`: read the lore file and
parse it (`readJson`); on a missing file or a parse failure fall back to a
fresh empty snapshot.  The filesystem is returned unchanged in every branch
because the source performs no write during load. -/
def loadLore (fs : FS) (loreFilePath : String)
    (parse : String → Option LoreSnapshot) (workspace now : String) :
    LoreSnapshot × FS :=
  match fs loreFilePath with
  | some raw =>
    match parse raw with
    | some snap => (snap, fs)
    | none => (emptySnapshot workspace now, fs)
  | none => (emptySnapshot workspace now, fs)

/-- Model of `LoreManager.upsertLoreItem` followed by the (debounced)
`saveLore` it schedules: run the upsert, stamp `fileMetadata.lastUpdatedAt`,
and persist the serialized snapshot to the lore file with `safeWriteJson`
(no injected failure).  Returns the new snapshot, the affected id, and the
filesystem after the save fires. -/
def upsertAndSave (snapshot : LoreSnapshot) (fs : FS) (loreFilePath : String)
    (payload : SavePayload) (relFile : String) (startLine endLine : Int)
    (now : String) (nowMs : Int) (serialize : LoreSnapshot → String) :
    LoreSnapshot × String × FS :=
  let r := upsertLoreItem snapshot payload relFile startLine endLine now nowMs
  let snap2 := { r.1 with
                 fileMetadata := { r.1.fileMetadata with lastUpdatedAt := now } }
  (snap2, r.2, (safeWriteJson fs loreFilePath nowMs (serialize snap2) "" .ok).2)

/-- Well-formedness of a location per the data model: 1-based start, no
inversion. -/
def locOK (l : LoreLocation) : Prop :=
  1 ≤ l.startLine ∧ l.startLine ≤ l.endLine

instance (l : LoreLocation) : Decidable (locOK l) := by
  unfold locOK; infer_instance

theorem adjustLocation_locOK (l : LoreLocation) (c δ : Int)
    (h : l.startLine ≤ l.endLine) : locOK (adjustLocation l c δ) := by
  unfold adjustLocation locOK
  dsimp only
  split_ifs <;> constructor <;> dsimp only <;> omega

theorem applyChange_locOK (relFile : String) (items : List LoreItem)
    (c : ContentChange) (h : ∀ i ∈ items, locOK i.location) :
    ∀ i ∈ applyChange relFile items c, locOK i.location := by
  intro i hi
  unfold applyChange at hi
  split at hi
  · exact h i hi
  · obtain ⟨j, hj, rfl⟩ := List.mem_map.1 hi
    split
    · exact adjustLocation_locOK _ _ _ (h j hj).2
    · exact h j hj

theorem foldl_applyChange_locOK (relFile : String)
    (cs : List ContentChange) :
    ∀ items : List LoreItem, (∀ i ∈ items, locOK i.location) →
      ∀ i ∈ cs.foldl (applyChange relFile) items, locOK i.location := by
  induction cs with
  | nil => intro items h i hi; exact h i hi
  | cons c cs ih =>
    intro items h
    simp only [List.foldl_cons]
    exact ih _ (applyChange_locOK relFile items c h)

/-- C1: for every record and every sequence of edits, after every call to
the location-tracker adjust operation every record's location satisfies
`startLine ≥ 1` and `endLine ≥ startLine` — the tracker preserves the
data-model clamp invariant. -/
theorem adjustLoreLocations_clamp_invariant (s : LoreSnapshot)
    (relFile : String) (cs : List ContentChange) (now : String)
    (h : ∀ i ∈ s.items, locOK i.location) :
    ∀ i ∈ (adjustLoreLocations s relFile cs now).1.items, locOK i.location := by
  unfold adjustLoreLocations
  split
  · exact h
  · split
    · exact foldl_applyChange_locOK relFile cs s.items h
    · exact h

/-- Witness for `adjustLoreLocations_clamp_invariant` at a concrete store
and a deleting edit whose raw shift would go negative. -/
theorem adjustLoreLocations_clamp_invariant_witness :
    (∀ i ∈ (snapOf [baseItem]).items, locOK i.location)
    ∧ ∀ i ∈ (adjustLoreLocations (snapOf [baseItem]) "a.ts"
          [{ rangeStartLine := 0, rangeEndLine := 100, newLineCount := 0 }]
          "t1").1.items, locOK i.location :=
  ⟨by decide,
    adjustLoreLocations_clamp_invariant (snapOf [baseItem]) "a.ts"
      [{ rangeStartLine := 0, rangeEndLine := 100, newLineCount := 0 }] "t1"
      (by decide)⟩

theorem filter_not_isEmpty_of_mem {l : List LoreItem} {p : LoreItem → Bool}
    {i : LoreItem} (hm : i ∈ l) (hp : p i = true) :
    (l.filter p).isEmpty = false := by
  rcases hl : (l.filter p).isEmpty with _ | _
  · rfl
  · rw [List.isEmpty_iff] at hl
    exact absurd hp ((List.filter_eq_nil_iff.1 hl) i hm).elim

/-- Reduction of a single-edit `adjustLoreLocations` call at the position of
a tracked item: the item's location is rewritten by `adjustLocation`. -/
theorem adjust_single_edit_getElem (s : LoreSnapshot) (relFile now : String)
    (c : ContentChange) (k : Nat) (i : LoreItem)
    (hk : s.items[k]? = some i) (htr : trackedFor relFile i = true)
    (hδ : lineDelta c ≠ 0) :
    (adjustLoreLocations s relFile [c] now).1.items[k]? =
      some { i with
             location := adjustLocation i.location c.rangeStartLine (lineDelta c) } := by
  have hmem : i ∈ s.items := List.getElem?_mem hk
  have hany : ([c].any fun c => decide (lineDelta c ≠ 0)) = true := by
    simp [hδ]
  unfold adjustLoreLocations
  rw [filter_not_isEmpty_of_mem hmem htr]
  rw [if_neg (by simp), if_pos hany]
  dsimp only
  simp only [List.foldl_cons, List.foldl_nil]
  unfold applyChange
  rw [if_neg hδ]
  rw [List.getElem?_map (fun i => if trackedFor relFile i = true then
        { i with location := adjustLocation i.location c.rangeStartLine (lineDelta c) }
      else i) s.items k]
  rw [hk]
  simp only [Option.map_some']
  rw [if_pos htr]

/-- C2: an edit with nonzero delta starting inside a tracked multi-line
record (at-or-after its start line and at-or-before its end line, 0-based)
leaves `startLine` unchanged and shifts `endLine` by the delta, clamped to
at least `startLine`. -/
theorem adjustLoreLocations_edit_inside_multiline (s : LoreSnapshot)
    (relFile now : String) (c : ContentChange) (k : Nat) (i : LoreItem)
    (hk : s.items[k]? = some i)
    (hstate : i.state = LoreState.active)
    (hfile : i.file = relFile)
    (h1 : 1 ≤ i.location.startLine)
    (hml : i.location.startLine < i.location.endLine)
    (hδ : lineDelta c ≠ 0)
    (hlo : i.location.startLine - 1 ≤ c.rangeStartLine)
    (hhi : c.rangeStartLine ≤ i.location.endLine - 1) :
    (adjustLoreLocations s relFile [c] now).1.items[k]? =
      some { i with location :=
              { i.location with
                endLine := max (i.location.endLine + lineDelta c)
                             i.location.startLine } } := by
  have htr : trackedFor relFile i = true := by
    simp [trackedFor, hstate, hfile]
  have hloc : adjustLocation i.location c.rangeStartLine (lineDelta c)
      = { i.location with
          endLine := max (i.location.endLine + lineDelta c)
                       i.location.startLine } := by
    unfold adjustLocation
    dsimp only
    rw [if_neg (by omega), if_neg (by omega), if_pos (by omega)]
    simp only [LoreLocation.mk.injEq]
    refine ⟨by omega, ?_, trivial, trivial, trivial⟩
    split <;> omega
  rw [adjust_single_edit_getElem s relFile now c k i hk htr hδ, hloc]

/-- Witness for `adjustLoreLocations_edit_inside_multiline`: the spec's own
test vector — a record spanning lines 5–10, an edit at line 7 replacing one
line with four (delta +3), yielding 5–13. -/
theorem adjustLoreLocations_edit_inside_multiline_witness :
    (adjustLoreLocations (snapOf [baseItem]) "a.ts"
        [{ rangeStartLine := 7, rangeEndLine := 7, newLineCount := 3 }]
        "t1").1.items[0]? =
      some { baseItem with location :=
              { baseItem.location with endLine := max (10 + 3) 5 } } := by
  have h := adjustLoreLocations_edit_inside_multiline (snapOf [baseItem])
    "a.ts" "t1" { rangeStartLine := 7, rangeEndLine := 7, newLineCount := 3 }
    0 baseItem (by decide) (by decide) (by decide) (by decide) (by decide)
    (by decide) (by decide) (by decide)
  exact h

/-- Sample single-line active item on file `a.ts` at line 2. -/
def lowItem : LoreItem :=
  { baseItem with id := "i2", location := { startLine := 2, endLine := 2 } }

/-- Sample single-line active item on file `a.ts` at line 10. -/
def tenItem : LoreItem :=
  { baseItem with id := "i3", location := { startLine := 10, endLine := 10 } }

/-- C3 counterexample: a single-line record at line 2 and an edit at line 0
deleting five lines (delta −5, start at-or-before the record) end up at
line 1 — the `Math.max(1, ·)` clamp fires — not at the exact shift
`2 + (−5) = −3` the claim asserts. -/
theorem adjustLoreLocations_shift_clamps_cex :
    ((adjustLoreLocations (snapOf [lowItem]) "a.ts"
        [{ rangeStartLine := 0, rangeEndLine := 5, newLineCount := 0 }]
        "t1").1.items.map fun i => (i.location.startLine, i.location.endLine))
      = [(1, 1)]
    ∧ ((1 : Int), (1 : Int)) ≠ ((2 : Int) + (-5), (2 : Int) + (-5)) := by
  decide

/-- C3 (amended): an edit with nonzero delta starting strictly before a
tracked record (at-or-before it when single-line) shifts both `startLine`
and `endLine` by the delta and then clamps each at a minimum of 1; an edit
starting strictly after the record's end line leaves the record
unchanged. -/
theorem adjustLoreLocations_shift_before_record (s : LoreSnapshot)
    (relFile now : String) (c : ContentChange) (k : Nat) (i : LoreItem)
    (hk : s.items[k]? = some i)
    (hstate : i.state = LoreState.active)
    (hfile : i.file = relFile)
    (h1 : 1 ≤ i.location.startLine)
    (hse : i.location.startLine ≤ i.location.endLine)
    (hδ : lineDelta c ≠ 0) :
    ((i.location.startLine = i.location.endLine →
        c.rangeStartLine ≤ i.location.startLine - 1) →
     (i.location.startLine < i.location.endLine →
        c.rangeStartLine < i.location.startLine - 1) →
      (adjustLoreLocations s relFile [c] now).1.items[k]? =
        some { i with location :=
                { i.location with
                  startLine := max 1 (i.location.startLine + lineDelta c)
                  endLine := max 1 (i.location.endLine + lineDelta c) } })
    ∧ (i.location.endLine - 1 < c.rangeStartLine →
        (adjustLoreLocations s relFile [c] now).1.items[k]? = some i) := by
  have htr : trackedFor relFile i = true := by
    simp [trackedFor, hstate, hfile]
  rw [adjust_single_edit_getElem s relFile now c k i hk htr hδ]
  obtain ⟨iid, ist, ifl, ⟨sl, el, ax, cp, lh⟩, isum, ibody, itags, ilinks,
    iauth, icr, iup, ict, itru⟩ := i
  dsimp only at h1 hse ⊢
  constructor
  · intro hsingle hmulti
    have hloc : adjustLocation ⟨sl, el, ax, cp, lh⟩ c.rangeStartLine (lineDelta c)
        = ⟨max 1 (sl + lineDelta c), max 1 (el + lineDelta c), ax, cp, lh⟩ := by
      unfold adjustLocation
      dsimp only
      by_cases hsl : sl - 1 = el - 1
      · rw [if_pos hsl, if_pos (by omega)]
        simp only [LoreLocation.mk.injEq]
        exact ⟨by omega, by omega, trivial, trivial, trivial⟩
      · rw [if_neg hsl, if_pos (by omega)]
        simp only [LoreLocation.mk.injEq]
        exact ⟨by omega, by omega, trivial, trivial, trivial⟩
    rw [hloc]
  · intro hafter
    have hloc : adjustLocation ⟨sl, el, ax, cp, lh⟩ c.rangeStartLine (lineDelta c)
        = ⟨sl, el, ax, cp, lh⟩ := by
      unfold adjustLocation
      dsimp only
      by_cases hsl : sl - 1 = el - 1
      · rw [if_pos hsl, if_neg (by omega)]
        simp only [LoreLocation.mk.injEq]
        exact ⟨by omega, by omega, trivial, trivial, trivial⟩
      · rw [if_neg hsl, if_neg (by omega), if_neg (by omega)]
        simp only [LoreLocation.mk.injEq]
        exact ⟨by omega, by omega, trivial, trivial, trivial⟩
    rw [hloc]

/-- Witness for `adjustLoreLocations_shift_before_record`: the spec's own
test vector — a single-line record at line 10 and an edit inserting three
net lines starting at line 2 relocate the record to line 13. -/
theorem adjustLoreLocations_shift_before_record_witness :
    (adjustLoreLocations (snapOf [tenItem]) "a.ts"
        [{ rangeStartLine := 2, rangeEndLine := 2, newLineCount := 3 }]
        "t1").1.items[0]? =
      some { tenItem with location :=
              { tenItem.location with
                startLine := max 1 (10 + 3), endLine := max 1 (10 + 3) } } :=
  (adjustLoreLocations_shift_before_record (snapOf [tenItem]) "a.ts" "t1"
      { rangeStartLine := 2, rangeEndLine := 2, newLineCount := 3 }
      0 tenItem (by decide) (by decide) (by decide) (by decide) (by decide)
      (by decide)).1 (by intro _; decide) (by intro h; exact absurd h (by decide))

/-- C10 counterexample: a nonzero-delta edit strictly after the only tracked
record sets the changed flag (so the source refreshes decorations and
schedules a save) even though no record's location changed. -/
theorem adjustLoreLocations_changed_flag_cex :
    (adjustLoreLocations (snapOf [baseItem]) "a.ts"
        [{ rangeStartLine := 20, rangeEndLine := 20, newLineCount := 5 }]
        "t1").2 = true
    ∧ (adjustLoreLocations (snapOf [baseItem]) "a.ts"
        [{ rangeStartLine := 20, rangeEndLine := 20, newLineCount := 5 }]
        "t1").1.items = (snapOf [baseItem]).items := by
  decide

/-- C10 (amended): the tracker's changed flag is true exactly when the
edited file has at least one active record and at least one edit has a
nonzero line delta — not when a location actually changed; and whenever the
flag is false the snapshot is left untouched. -/
theorem adjustLoreLocations_changed_flag (s : LoreSnapshot)
    (relFile : String) (cs : List ContentChange) (now : String) :
    (adjustLoreLocations s relFile cs now).2
      = (!(s.items.filter (trackedFor relFile)).isEmpty
          && cs.any fun c => decide (lineDelta c ≠ 0))
    ∧ ((adjustLoreLocations s relFile cs now).2 = false →
        (adjustLoreLocations s relFile cs now).1 = s) := by
  unfold adjustLoreLocations
  by_cases hempty : (s.items.filter (trackedFor relFile)).isEmpty = true
  · rw [if_pos hempty, hempty]
    exact ⟨rfl, fun _ => rfl⟩
  · rw [Bool.not_eq_true] at hempty
    rw [if_neg (by rw [hempty]; exact Bool.false_ne_true), hempty]
    by_cases hany : (cs.any fun c => decide (lineDelta c ≠ 0)) = true
    · rw [if_pos hany, hany]
      exact ⟨rfl, fun h => nomatch h⟩
    · rw [Bool.not_eq_true] at hany
      rw [if_neg (by rw [hany]; exact Bool.false_ne_true), hany]
      exact ⟨rfl, fun _ => rfl⟩

/-- Witness for `adjustLoreLocations_changed_flag`: with no edits the flag
is false and the snapshot is returned untouched. -/
theorem adjustLoreLocations_changed_flag_witness :
    (adjustLoreLocations (snapOf [baseItem]) "a.ts" [] "t1").1
      = snapOf [baseItem] :=
  (adjustLoreLocations_changed_flag (snapOf [baseItem]) "a.ts" [] "t1").2
    (by decide)

/-- Truthiness of an optional number (`if (payload.startLine)` style uses). -/
def optIntTruthy : Option Int → Bool
  | some n => n ≠ 0
  | none => false

theorem updateFirstById_none (items : List LoreItem) (pid : String)
    (upd : LoreItem → LoreItem) (h : ∀ i ∈ items, i.id ≠ pid) :
    updateFirstById items pid upd = none := by
  induction items with
  | nil => rfl
  | cons i rest ih =>
    unfold updateFirstById
    rw [if_neg (h i (List.mem_cons_self i rest)),
      ih fun j hj => h j (List.mem_cons_of_mem i hj)]

theorem updateFirstById_spec (pre : List LoreItem) (ex : LoreItem)
    (post : List LoreItem) (pid : String) (upd : LoreItem → LoreItem)
    (hpre : ∀ i ∈ pre, i.id ≠ pid) (hex : ex.id = pid) :
    updateFirstById (pre ++ ex :: post) pid upd
      = some (pre ++ upd ex :: post, (upd ex).id) := by
  induction pre with
  | nil =>
    simp only [List.nil_append]
    unfold updateFirstById
    rw [if_pos hex]
  | cons i pre ih =>
    simp only [List.cons_append]
    unfold updateFirstById
    rw [if_neg (hpre i (List.mem_cons_self i pre)),
      ih fun j hj => hpre j (List.mem_cons_of_mem i hj)]

/-- Reduction of `upsertLoreItem` when the payload carries a truthy id that
matches the record `ex` (first match, all earlier items have other ids). -/
theorem upsertLoreItem_found (s : LoreSnapshot) (payload : SavePayload)
    (relFile : String) (sl el : Int) (now : String) (nowMs : Int)
    (pid : String) (pre post : List LoreItem) (ex : LoreItem)
    (hid : payload.id = some pid) (hpid : pid ≠ "")
    (hitems : s.items = pre ++ ex :: post)
    (hpre : ∀ i ∈ pre, i.id ≠ pid) (hex : ex.id = pid) :
    upsertLoreItem s payload relFile sl el now nowMs
      = ({ s with items := pre ++ mergeLoreItem ex payload relFile sl el now :: post },
         ex.id) := by
  unfold upsertLoreItem
  rw [hid]
  have htru : optTruthy (some pid) = true := by
    simp [optTruthy, hpid]
  rw [if_pos htru]
  simp only [Option.getD_some]
  rw [hitems, updateFirstById_spec pre ex post pid _ hpre hex]
  rfl

/-- Reduction of `upsertLoreItem` when the payload carries a truthy id
matching no record: a record with the supplied id is appended. -/
theorem upsertLoreItem_notFound (s : LoreSnapshot) (payload : SavePayload)
    (relFile : String) (sl el : Int) (now : String) (nowMs : Int)
    (pid : String)
    (hid : payload.id = some pid) (hpid : pid ≠ "")
    (hfresh : ∀ i ∈ s.items, i.id ≠ pid) :
    upsertLoreItem s payload relFile sl el now nowMs
      = ({ s with items :=
             s.items ++ [makeNewItem payload relFile sl el now nowMs (some pid)] },
         pid) := by
  unfold upsertLoreItem
  rw [hid]
  have htru : optTruthy (some pid) = true := by
    simp [optTruthy, hpid]
  rw [if_pos htru]
  simp only [Option.getD_some]
  rw [updateFirstById_none s.items pid _ hfresh]
  rfl

/-- Sample existing record with externally supplied id `x`. -/
def itemX : LoreItem :=
  { baseItem with
    id := "x"
    file := "a.ts"
    location := { startLine := 1, endLine := 2 } }

/-- Payload carrying only an id (every other field absent). -/
def payloadIdOnly : SavePayload := { id := some "x" }

/-- C4 counterexample: merging a payload that carries only the id `x` into a
store whose record `x` lives in file `a.ts`, with fallback file `b.ts`,
rewrites the record's `file` to the fallback `b.ts` — a field absent from
the payload is not preserved unchanged. -/
theorem upsertLoreItem_absent_field_fallback_cex :
    ((upsertLoreItem (snapOf [itemX]) payloadIdOnly "b.ts" 7 9 "t1" 0).1.items.map
        fun i => i.file) = ["b.ts"]
    ∧ "b.ts" ≠ "a.ts" := by decide

/-- C4 (amended): upsert with a matching id merges in place — the matched
record is replaced at its position; `id`, `state` and `createdAt` are
preserved, `updatedAt` is set to now; `summary`, `body`, `tags`, `links`
and `author` follow nullish coalescing (a present value, even empty,
overwrites; an absent one preserves the existing value); `file`,
`startLine` and `endLine` follow the truthiness chain payload value, then
the call's fallback, then the existing value. -/
theorem upsertLoreItem_merge_semantics (s : LoreSnapshot)
    (payload : SavePayload) (relFile : String) (sl el : Int) (now : String)
    (nowMs : Int) (pid : String) (pre post : List LoreItem) (ex : LoreItem)
    (hid : payload.id = some pid) (hpid : pid ≠ "")
    (hitems : s.items = pre ++ ex :: post)
    (hpre : ∀ i ∈ pre, i.id ≠ pid) (hex : ex.id = pid) :
    (upsertLoreItem s payload relFile sl el now nowMs).1.items
        = pre ++ mergeLoreItem ex payload relFile sl el now :: post
    ∧ (upsertLoreItem s payload relFile sl el now nowMs).2 = ex.id
    ∧ (mergeLoreItem ex payload relFile sl el now).id = ex.id
    ∧ (mergeLoreItem ex payload relFile sl el now).state = ex.state
    ∧ (mergeLoreItem ex payload relFile sl el now).createdAt = ex.createdAt
    ∧ (mergeLoreItem ex payload relFile sl el now).updatedAt = now
    ∧ (payload.summary = none →
        (mergeLoreItem ex payload relFile sl el now).summary = ex.summary)
    ∧ (payload.summary.isSome = true →
        (mergeLoreItem ex payload relFile sl el now).summary
          = payload.summary.getD "")
    ∧ (payload.body = none →
        (mergeLoreItem ex payload relFile sl el now).bodyMarkdown
          = ex.bodyMarkdown)
    ∧ (payload.tags = none →
        (mergeLoreItem ex payload relFile sl el now).tags = ex.tags)
    ∧ (payload.links = none →
        (mergeLoreItem ex payload relFile sl el now).links = ex.links)
    ∧ (payload.author = none →
        (mergeLoreItem ex payload relFile sl el now).author = ex.author)
    ∧ (optTruthy payload.file = true →
        (mergeLoreItem ex payload relFile sl el now).file = payload.file.getD "")
    ∧ (optTruthy payload.file = false → relFile ≠ "" →
        (mergeLoreItem ex payload relFile sl el now).file = relFile)
    ∧ (optTruthy payload.file = false → relFile = "" →
        (mergeLoreItem ex payload relFile sl el now).file = ex.file)
    ∧ (optIntTruthy payload.startLine = true →
        (mergeLoreItem ex payload relFile sl el now).location.startLine
          = payload.startLine.getD 0)
    ∧ (optIntTruthy payload.startLine = false → sl ≠ 0 →
        (mergeLoreItem ex payload relFile sl el now).location.startLine = sl)
    ∧ (optIntTruthy payload.startLine = false → sl = 0 →
        (mergeLoreItem ex payload relFile sl el now).location.startLine
          = ex.location.startLine)
    ∧ (optIntTruthy payload.endLine = true →
        (mergeLoreItem ex payload relFile sl el now).location.endLine
          = payload.endLine.getD 0)
    ∧ (optIntTruthy payload.endLine = false → el ≠ 0 →
        (mergeLoreItem ex payload relFile sl el now).location.endLine = el)
    ∧ (optIntTruthy payload.endLine = false → el = 0 →
        (mergeLoreItem ex payload relFile sl el now).location.endLine
          = ex.location.endLine) := by
  refine ⟨?_, ?_, rfl, rfl, rfl, rfl, ?_, ?_, ?_, ?_, ?_, ?_, ?_, ?_, ?_,
    ?_, ?_, ?_, ?_, ?_, ?_⟩
  · rw [upsertLoreItem_found s payload relFile sl el now nowMs pid pre post ex
      hid hpid hitems hpre hex]
  · rw [upsertLoreItem_found s payload relFile sl el now nowMs pid pre post ex
      hid hpid hitems hpre hex]
  · intro h; simp [mergeLoreItem, h]
  · intro h
    cases hf : payload.summary with
    | none => rw [hf] at h; exact absurd h (by simp)
    | some v => simp [mergeLoreItem, hf]
  · intro h; simp [mergeLoreItem, h]
  · intro h; simp [mergeLoreItem, h]
  · intro h; simp [mergeLoreItem, h]
  · intro h; simp [mergeLoreItem, h]
  · intro h
    cases hf : payload.file with
    | none => rw [hf] at h; exact absurd h (by simp [optTruthy])
    | some v =>
      rw [hf] at h
      have hv : v ≠ "" := by simpa [optTruthy] using h
      simp [mergeLoreItem, orStr, jsOrStr, hf, hv]
  · intro h hrel
    cases hf : payload.file with
    | none => simp [mergeLoreItem, orStr, jsOrStr, hf, hrel]
    | some v =>
      rw [hf] at h
      have hv : v = "" := by simpa [optTruthy] using h
      simp [mergeLoreItem, orStr, jsOrStr, hf, hv, hrel]
  · intro h hrel
    cases hf : payload.file with
    | none => simp [mergeLoreItem, orStr, jsOrStr, hf, hrel]
    | some v =>
      rw [hf] at h
      have hv : v = "" := by simpa [optTruthy] using h
      simp [mergeLoreItem, orStr, jsOrStr, hf, hv, hrel]
  · intro h
    cases hf : payload.startLine with
    | none => rw [hf] at h; exact absurd h (by simp [optIntTruthy])
    | some v =>
      rw [hf] at h
      have hv : v ≠ 0 := by simpa [optIntTruthy] using h
      simp [mergeLoreItem, orInt, jsOrInt, hf, hv]
  · intro h hsl
    cases hf : payload.startLine with
    | none => simp [mergeLoreItem, orInt, jsOrInt, hf, hsl]
    | some v =>
      rw [hf] at h
      have hv : v = 0 := by simpa [optIntTruthy] using h
      simp [mergeLoreItem, orInt, jsOrInt, hf, hv, hsl]
  · intro h hsl
    cases hf : payload.startLine with
    | none => simp [mergeLoreItem, orInt, jsOrInt, hf, hsl]
    | some v =>
      rw [hf] at h
      have hv : v = 0 := by simpa [optIntTruthy] using h
      simp [mergeLoreItem, orInt, jsOrInt, hf, hv, hsl]
  · intro h
    cases hf : payload.endLine with
    | none => rw [hf] at h; exact absurd h (by simp [optIntTruthy])
    | some v =>
      rw [hf] at h
      have hv : v ≠ 0 := by simpa [optIntTruthy] using h
      simp [mergeLoreItem, orInt, jsOrInt, hf, hv]
  · intro h hel
    cases hf : payload.endLine with
    | none => simp [mergeLoreItem, orInt, jsOrInt, hf, hel]
    | some v =>
      rw [hf] at h
      have hv : v = 0 := by simpa [optIntTruthy] using h
      simp [mergeLoreItem, orInt, jsOrInt, hf, hv, hel]
  · intro h hel
    cases hf : payload.endLine with
    | none => simp [mergeLoreItem, orInt, jsOrInt, hf, hel]
    | some v =>
      rw [hf] at h
      have hv : v = 0 := by simpa [optIntTruthy] using h
      simp [mergeLoreItem, orInt, jsOrInt, hf, hv, hel]

/-- Payload carrying the id `x` and a fresh summary. -/
def payloadSummary : SavePayload := { id := some "x", summary := some "S2" }

/-- Witness for `upsertLoreItem_merge_semantics`: merging a summary-only
payload into the store holding record `x` replaces exactly that record in
place and never touches `createdAt`. -/
theorem upsertLoreItem_merge_semantics_witness :
    (upsertLoreItem (snapOf [itemX]) payloadSummary "b.ts" 7 9 "t1" 0).1.items
        = [] ++ mergeLoreItem itemX payloadSummary "b.ts" 7 9 "t1" :: []
    ∧ (mergeLoreItem itemX payloadSummary "b.ts" 7 9 "t1").createdAt
        = itemX.createdAt :=
  have h := upsertLoreItem_merge_semantics (snapOf [itemX]) payloadSummary
    "b.ts" 7 9 "t1" 0 "x" [] [] itemX (by decide) (by decide) rfl
    (by decide) (by decide)
  ⟨h.1, h.2.2.2.2.1⟩

/-- C5: upserting twice with the same payload carrying a truthy id `x` that
matches no existing record leaves exactly one record with id `x`: the first
call appends a record with the supplied id (and returns `x`), the second
call updates it in place instead of appending a duplicate. -/
theorem upsertLoreItem_supplied_id_idempotent (s : LoreSnapshot)
    (payload : SavePayload) (relFile : String) (sl el : Int)
    (n1 n2 : String) (m1 m2 : Int) (x : String)
    (hid : payload.id = some x) (hx : x ≠ "")
    (hfresh : ∀ i ∈ s.items, i.id ≠ x) :
    ((upsertLoreItem (upsertLoreItem s payload relFile sl el n1 m1).1
        payload relFile sl el n2 m2).1.items.countP
          fun i => decide (i.id = x)) = 1
    ∧ (upsertLoreItem (upsertLoreItem s payload relFile sl el n1 m1).1
        payload relFile sl el n2 m2).1.items.length = s.items.length + 1
    ∧ (upsertLoreItem s payload relFile sl el n1 m1).2 = x := by
  have h1 := upsertLoreItem_notFound s payload relFile sl el n1 m1 x hid hx hfresh
  have hcid : (makeNewItem payload relFile sl el n1 m1 (some x)).id = x := rfl
  have h2 := upsertLoreItem_found
    (upsertLoreItem s payload relFile sl el n1 m1).1 payload relFile sl el
    n2 m2 x s.items [] (makeNewItem payload relFile sl el n1 m1 (some x))
    hid hx (by rw [h1]) hfresh hcid
  have hmid : (mergeLoreItem (makeNewItem payload relFile sl el n1 m1 (some x))
      payload relFile sl el n2).id = x := hcid
  refine ⟨?_, ?_, ?_⟩
  · rw [h2]
    dsimp only
    rw [List.countP_append]
    have hz : (s.items.countP fun i => decide (i.id = x)) = 0 :=
      List.countP_eq_zero.mpr fun a ha => by
        simpa using hfresh a ha
    rw [hz]
    simp [List.countP_cons, hmid]
  · rw [h2]
    dsimp only
    rw [List.length_append]
    rfl
  · rw [h1]

/-- Witness for `upsertLoreItem_supplied_id_idempotent` on the empty store:
double upsert with supplied id `x` yields one record with id `x`. -/
theorem upsertLoreItem_supplied_id_idempotent_witness :
    ((upsertLoreItem (upsertLoreItem (snapOf []) payloadIdOnly "a.ts" 1 1 "t1" 0).1
        payloadIdOnly "a.ts" 1 1 "t2" 0).1.items.countP
          fun i => decide (i.id = "x")) = 1
    ∧ (upsertLoreItem (upsertLoreItem (snapOf []) payloadIdOnly "a.ts" 1 1 "t1" 0).1
        payloadIdOnly "a.ts" 1 1 "t2" 0).1.items.length = (snapOf []).items.length + 1
    ∧ (upsertLoreItem (snapOf []) payloadIdOnly "a.ts" 1 1 "t1" 0).2 = "x" :=
  upsertLoreItem_supplied_id_idempotent (snapOf []) payloadIdOnly "a.ts" 1 1
    "t1" "t2" 0 0 "x" (by decide) (by decide) (by decide)

/-- C6 (code bug): `itemManager.ts` generates fresh ids as
`` `lore-${Date.now()}` ``, so two id-less upserts landing in the same
millisecond (`Date.now() = 100` for both) append two records carrying the
same id `lore-100` — the freshly generated id is not unique and the
one-record-per-id invariant is violated. -/
theorem upsertLoreItem_duplicate_generated_id :
    ((upsertLoreItem (upsertLoreItem (snapOf []) {} "a.ts" 1 1 "t1" 100).1
        {} "a.ts" 1 1 "t2" 100).1.items.map fun i => i.id)
      = ["lore-100", "lore-100"]
    ∧ ((upsertLoreItem (upsertLoreItem (snapOf []) {} "a.ts" 1 1 "t1" 100).1
        {} "a.ts" 1 1 "t2" 100).1.items.countP
          fun i => decide (i.id = "lore-100")) = 2 := by
  decide

theorem bucketGet_bucketAdd (m : List (String × List LoreItem))
    (k q : String) (v : LoreItem) :
    bucketGet (bucketAdd m k v) q
      = if q = k then bucketGet m q ++ [v] else bucketGet m q := by
  induction m with
  | nil =>
    simp only [bucketAdd, bucketGet]
    by_cases h : q = k
    · simp only [if_pos h, if_pos h.symm, List.nil_append]
    · simp only [if_neg h, if_neg (Ne.symm h)]
  | cons p rest ih =>
    obtain ⟨k2, l⟩ := p
    by_cases hk : k2 = k
    · simp only [bucketAdd, if_pos hk, bucketGet]
      by_cases hq : k2 = q
      · have hqk : q = k := hq.symm.trans hk
        simp only [if_pos hq, if_pos hqk]
      · have hqk : ¬ q = k := fun hh : q = k => hq (hk.trans hh.symm)
        simp only [if_neg hq, if_neg hqk]
    · simp only [bucketAdd, if_neg hk, bucketGet]
      by_cases hq : k2 = q
      · have hqk : ¬ q = k := fun hh : q = k => hk (hq.trans hh)
        simp only [if_pos hq, if_neg hqk]
      · simp only [if_neg hq, ih]

theorem bucketGet_commentRangesAux (root : String) (items : List LoreItem) :
    ∀ (m : List (String × List LoreItem)) (q : String),
      bucketGet (commentRangesAux root m items) q
        = bucketGet m q
          ++ items.filter fun i =>
               decide (pathJoin root i.file = q) && truthyLocation i := by
  induction items with
  | nil => intro m q; simp [commentRangesAux]
  | cons i rest ih =>
    intro m q
    simp only [commentRangesAux]
    by_cases ht : truthyLocation i = true
    · rw [if_pos ht, ih, bucketGet_bucketAdd, List.filter_cons]
      by_cases hq : q = pathJoin root i.file
      · rw [if_pos hq, if_pos (by simp [hq, ht])]
        simp
      · rw [if_neg hq, if_neg (by simp [ht]; exact fun hh => hq hh.symm)]
    · rw [if_neg ht, ih, List.filter_cons,
        if_neg (by simp [Bool.not_eq_true] at ht ⊢; simp [ht])]

theorem foldl_applyChange_untracked (relFile : String)
    (cs : List ContentChange) :
    ∀ (items : List LoreItem) (k : Nat) (i : LoreItem),
      items[k]? = some i → trackedFor relFile i = false →
      (cs.foldl (applyChange relFile) items)[k]? = some i := by
  induction cs with
  | nil => intro items k i hk _; exact hk
  | cons c cs ih =>
    intro items k i hk hf
    simp only [List.foldl_cons]
    refine ih (applyChange relFile items c) k i ?_ hf
    unfold applyChange
    split
    · exact hk
    · rw [List.getElem?_map _ items k, hk]
      simp only [Option.map_some']
      rw [if_neg (by rw [hf]; exact Bool.false_ne_true)]

theorem adjustLoreLocations_untracked (s : LoreSnapshot)
    (relFile now : String) (cs : List ContentChange) (k : Nat)
    (i : LoreItem) (hk : s.items[k]? = some i)
    (hf : trackedFor relFile i = false) :
    (adjustLoreLocations s relFile cs now).1.items[k]? = some i := by
  unfold adjustLoreLocations
  split
  · exact hk
  · split
    · exact foldl_applyChange_untracked relFile cs s.items k i hk hf
    · exact hk

/-- Sample archived item with a truthy location on file `a.ts`. -/
def archItem : LoreItem :=
  { baseItem with
    id := "arch"
    state := .archived
    location := { startLine := 1, endLine := 1 } }

/-- C7 counterexample: the per-file query returns an archived record —
`updateCommentRanges` filters only on a truthy location, never on `state`,
so non-active records do appear in the index used for decoration. -/
theorem getLoreItemsForFile_nonactive_cex :
    getLoreItemsForFile (snapOf [archItem]) "/w" "/w/a.ts" = [archItem]
    ∧ archItem.state ≠ LoreState.active := by
  constructor
  · rfl
  · decide

/-- C7 (amended): the location tracker never mutates a record that is not
active (its list position holds the identical record after any adjust
call), and the per-file query returns, order-preserving, exactly the
records whose joined path matches and whose start and end lines are truthy
(nonzero) — regardless of their state. -/
theorem tracker_frame_and_perfile_index :
    (∀ (s : LoreSnapshot) (relFile now : String) (cs : List ContentChange)
        (k : Nat) (i : LoreItem), s.items[k]? = some i →
        i.state ≠ LoreState.active →
        (adjustLoreLocations s relFile cs now).1.items[k]? = some i)
    ∧ ∀ (s : LoreSnapshot) (root q : String),
        getLoreItemsForFile s root q
          = s.items.filter fun i =>
              decide (pathJoin root i.file = q) && truthyLocation i := by
  constructor
  · intro s relFile now cs k i hk hstate
    refine adjustLoreLocations_untracked s relFile now cs k i hk ?_
    simp [trackedFor, hstate]
  · intro s root q
    unfold getLoreItemsForFile updateCommentRanges
    rw [bucketGet_commentRangesAux]
    simp [bucketGet]

/-- Witness for `tracker_frame_and_perfile_index`: an edit that moves the
active record of `a.ts` leaves the archived record at index 1 untouched. -/
theorem tracker_frame_and_perfile_index_witness :
    (adjustLoreLocations (snapOf [baseItem, archItem]) "a.ts"
        [{ rangeStartLine := 0, rangeEndLine := 0, newLineCount := 2 }]
        "t1").1.items[1]? = some archItem :=
  tracker_frame_and_perfile_index.1 (snapOf [baseItem, archItem]) "a.ts" "t1"
    [{ rangeStartLine := 0, rangeEndLine := 0, newLineCount := 2 }]
    1 archItem (by decide) (by decide)

theorem append_tmp_ne (p : String) (t : Int) :
    p ++ (".tmp." ++ toString t) ≠ p := by
  intro h
  have hlen := congrArg String.length h
  rw [String.length_append, String.length_append] at hlen
  have h5 : (".tmp." : String).length = 5 := rfl
  omega

/-- C8: `safeWriteJson` is atomic — a failure while serializing, writing the
temp file, or syncing the temp file leaves the destination's prior contents
unchanged; once the rename runs the destination holds exactly the new
contents (whether or not the best-effort directory sync then fails). -/
theorem safeWriteJson_atomic (fs : FS) (p : String) (t : Int)
    (text partContent : String) :
    (safeWriteJson fs p t text partContent .serializeFail).2 p = fs p
    ∧ (safeWriteJson fs p t text partContent .writeTmpFail).2 p = fs p
    ∧ (safeWriteJson fs p t text partContent .syncTmpFail).2 p = fs p
    ∧ (safeWriteJson fs p t text partContent .ok).2 p = some text
    ∧ (safeWriteJson fs p t text partContent .okDirSyncFail).2 p = some text := by
  have hne : p ≠ p ++ (".tmp." ++ toString t) :=
    fun h => append_tmp_ne p t h.symm
  refine ⟨rfl, ?_, ?_, ?_, ?_⟩
  · unfold safeWriteJson fsSet
    dsimp only
    rw [if_neg hne]
  · unfold safeWriteJson fsSet
    dsimp only
    rw [if_neg hne]
  · unfold safeWriteJson fsSet fsDel
    dsimp only
    rw [if_pos rfl]
  · unfold safeWriteJson fsSet fsDel
    dsimp only
    rw [if_pos rfl]

/-- Filesystem holding a corrupt (unparseable) lore file. -/
def corruptFS : FS :=
  fun q => if q = "/w/.lore.json" then some "CORRUPTBYTES" else none

/-- C9 counterexample: after a failed parse the manager falls back to the
empty store, but the very next upsert schedules a save that rewrites the
lore file — the still-present corrupt bytes are overwritten with the
serialized fallback store, with no confirmation step anywhere in the
code. -/
theorem corrupt_file_overwritten_cex :
    (loadLore corruptFS "/w/.lore.json" (fun _ => none) "w" "t0").1
        = emptySnapshot "w" "t0"
    ∧ (upsertAndSave
        (loadLore corruptFS "/w/.lore.json" (fun _ => none) "w" "t0").1
        corruptFS "/w/.lore.json" {} "a.ts" 1 1 "t1" 5
        (fun _ => "NEWJSON")).2.2 "/w/.lore.json" = some "NEWJSON"
    ∧ corruptFS "/w/.lore.json" = some "CORRUPTBYTES"
    ∧ ("NEWJSON" : String) ≠ "CORRUPTBYTES" := by
  refine ⟨rfl, rfl, rfl, by decide⟩

/-- C9 (amended): on a parse failure `loadLore` falls back to a freshly
initialized empty snapshot and performs no write itself (the corrupt bytes
are still on disk after the load); but any subsequent upsert schedules a
save that overwrites the lore file with the serialized fallback-derived
store, without further confirmation. -/
theorem loadLore_fallback_and_subsequent_save (fs : FS) (p : String)
    (parse : String → Option LoreSnapshot) (ws now raw : String)
    (payload : SavePayload) (relFile : String) (sl el : Int)
    (now2 : String) (ms : Int) (ser : LoreSnapshot → String)
    (hraw : fs p = some raw) (hparse : parse raw = none) :
    (loadLore fs p parse ws now).1 = emptySnapshot ws now
    ∧ (loadLore fs p parse ws now).2 p = some raw
    ∧ (upsertAndSave (loadLore fs p parse ws now).1 fs p payload relFile
        sl el now2 ms ser).2.2 p
        = some (ser (upsertAndSave (loadLore fs p parse ws now).1 fs p
            payload relFile sl el now2 ms ser).1) := by
  refine ⟨?_, ?_, ?_⟩
  · unfold loadLore
    rw [hraw]
    dsimp only
    rw [hparse]
  · unfold loadLore
    rw [hraw]
    dsimp only
    rw [hparse]
    exact hraw
  · unfold upsertAndSave safeWriteJson fsSet fsDel
    dsimp only
    rw [if_pos rfl]

/-- Witness for `loadLore_fallback_and_subsequent_save` on the concrete
corrupt filesystem with an all-rejecting parser and a constant
serializer. -/
theorem loadLore_fallback_and_subsequent_save_witness :
    (loadLore corruptFS "/w/.lore.json" (fun _ => none) "w" "t0").1
        = emptySnapshot "w" "t0"
    ∧ (loadLore corruptFS "/w/.lore.json" (fun _ => none) "w" "t0").2
        "/w/.lore.json" = some "CORRUPTBYTES"
    ∧ (upsertAndSave
        (loadLore corruptFS "/w/.lore.json" (fun _ => none) "w" "t0").1
        corruptFS "/w/.lore.json" {} "a.ts" 1 1 "t1" 5
        (fun _ => "NEWJSON")).2.2 "/w/.lore.json"
        = some ((fun _ => "NEWJSON")
            ((upsertAndSave
              (loadLore corruptFS "/w/.lore.json" (fun _ => none) "w" "t0").1
              corruptFS "/w/.lore.json" {} "a.ts" 1 1 "t1" 5
              (fun _ => "NEWJSON")).1)) :=
  loadLore_fallback_and_subsequent_save corruptFS "/w/.lore.json"
    (fun _ => none) "w" "t0" "CORRUPTBYTES" {} "a.ts" 1 1 "t1" 5
    (fun _ => "NEWJSON") rfl rfl
